import Mathlib

/-!
Verification of the fjord validation engine (dotvirus/fjord).

Shallow embedding of `src/handlers.ts`, `src/index.ts` and `src/common.ts`.

Modelling conventions:
* A JavaScript runtime value is modelled by `Value`.  JS numbers are modelled
  by `JSNum`: a finite number is carried as a rational (the claims never
  exercise IEEE rounding), and the non-finite values `Infinity`, `-Infinity`
  and `NaN` are explicit constructors, because the fjord `isFloat` predicate
  observes them (`Infinity % 1` is `NaN` and `NaN !== 0` is `true`).
* Asynchronous steps are awaited to completion one after another in the
  source, so the embedding is an ordinary sequential computation.
* A rule is the caller's function of `(value, key, root)`; besides its
  `boolean | number | string` result it may carry a list of opaque effect
  tags (`List Nat`), which lets theorems talk about a rule never running.
* The lifecycle hooks `before` / `after` / `onSuccess` / `onFail` /
  `onDefault` are void functions supplied by the caller; the orchestrator
  model records each invocation (with the exact arguments the source passes)
  as an `Event` in an output trace.  The root object is threaded explicitly:
  `tree.set` on the mutable root becomes a functional update.
-/

/-- A JavaScript number: a finite value (modelled as a rational), one of the
two infinities, or `NaN`. -/
inductive JSNum where
  | finite (q : ℚ)
  | posInf
  | negInf
  | nan
deriving DecidableEq, Repr

/-- `NaN` test. -/
def JSNum.isNaN : JSNum → Bool
  | .nan => true
  | _ => false

/-- Finiteness test (true exactly on `finite` values). -/
def JSNum.isFinite : JSNum → Bool
  | .finite _ => true
  | _ => false

/-- JS `a >= b` on numbers (`NaN` compares false to everything). -/
def JSNum.ge : JSNum → JSNum → Bool
  | .nan, _ => false
  | _, .nan => false
  | .posInf, _ => true
  | .negInf, .negInf => true
  | .negInf, _ => false
  | .finite _, .posInf => false
  | .finite _, .negInf => true
  | .finite a, .finite b => a ≥ b

/-- JS `a <= b` on numbers. -/
def JSNum.le (a b : JSNum) : Bool := JSNum.ge b a

/-- JS `n % 1 !== 0`.  For a finite number the remainder by 1 vanishes
exactly on integral values; for `Infinity`, `-Infinity` and `NaN` the
remainder is `NaN`, and `NaN !== 0` is `true`. -/
def JSNum.mod1NeZero : JSNum → Bool
  | .finite q => q.den != 1
  | _ => true

/-- A JavaScript runtime value as far as fjord observes it.  Objects are
association lists from string keys to values (reference identity is not
modelled; no claim depends on it). -/
inductive Value where
  | undefined
  | null
  | bool (b : Bool)
  | num (n : JSNum)
  | str (s : String)
  | arr (elems : List Value)
  | obj (fields : List (String × Value))
deriving Repr

/-- `v === undefined`. -/
def Value.isUndefined : Value → Bool
  | .undefined => true
  | _ => false

/-- `typeof v == "string"` (src/handlers.ts `isString`). -/
def jsIsString : Value → Bool
  | .str _ => true
  | _ => false

/-- `typeof v == "boolean"` (src/handlers.ts `isBoolean`). -/
def jsIsBoolean : Value → Bool
  | .bool _ => true
  | _ => false

/-- `typeof v == "number"` (src/handlers.ts `isNumber`); note `NaN` and the
infinities are numbers. -/
def jsIsNumber : Value → Bool
  | .num _ => true
  | _ => false

/-- `Number.isInteger(v)` (src/handlers.ts `isInteger`): a finite number with
no fractional part. -/
def jsIsInteger : Value → Bool
  | .num (.finite q) => q.den == 1
  | _ => false

/-- `Number(v) === v && v % 1 !== 0` (src/handlers.ts `isFloat`).  For a
non-number `v` the strict equality between `Number(v)` and `v` is false; for
a number it holds exactly when `v` is not `NaN`.  Note that the infinities
satisfy this predicate: `Infinity % 1` is `NaN`, which is `!== 0`. -/
def jsIsFloat : Value → Bool
  | .num n => !n.isNaN && n.mod1NeZero
  | _ => false

/-- `typeof v == "object" && v !== null` (src/handlers.ts `isObject`);
arrays are objects in JS. -/
def jsIsObject : Value → Bool
  | .obj _ => true
  | .arr _ => true
  | _ => false

/-- `Array.isArray(v)` (src/handlers.ts `isArray`). -/
def jsIsArray : Value → Bool
  | .arr _ => true
  | _ => false

/-- The result of a rule: `boolean | number | string` (src/common.ts
`RuleFunction`).  `bool true` is the pass value. -/
inductive RuleResult where
  | bool (b : Bool)
  | num (n : JSNum)
  | str (s : String)
deriving DecidableEq, Repr

/-- An optional error payload (`err?: number | string`). -/
inductive ErrPayload where
  | num (n : JSNum)
  | str (s : String)
deriving DecidableEq, Repr

/-- JS truthiness of a `number | string` payload: `0`, `NaN` and the empty
string are falsy. -/
def ErrPayload.truthy : ErrPayload → Bool
  | .num (.finite q) => q != 0
  | .num .nan => false
  | .num _ => true
  | .str s => s != ""

/-- View a payload as a rule result. -/
def ErrPayload.toResult : ErrPayload → RuleResult
  | .num n => .num n
  | .str s => .str s

/-- A rule (src/common.ts `RuleFunction`): a function of
`(value, key, root)` returning a result, together with the opaque effect
tags its execution emits.  Built-in rules emit no effects; a `custom` rule
may emit any. -/
abbrev Rule := Value → String → Value → RuleResult × List Nat

/-- The ubiquitous source idiom `cond || err || false`: pass when the
condition holds, otherwise fall back to the payload when it is truthy,
otherwise to the boolean `false`. -/
def orErr (cond : Bool) (err : Option ErrPayload) : RuleResult :=
  if cond then .bool true
  else match err with
    | some e => if e.truthy then e.toResult else .bool false
    | none => .bool false

/-- A side-effect-free rule built from a predicate and an optional payload,
the shape of every built-in constraint in src/handlers.ts. -/
def predRule (p : Value → Bool) (err : Option ErrPayload) : Rule :=
  fun v _ _ => (orErr (p v) err, [])

/-- The default-value slot `m_default?: DefaultFunction | unknown`.  A TS
field that was never assigned holds `undefined`, which is `.val .undefined`
here; a function default is `.fn`. -/
inductive DefaultSlot where
  | val (v : Value)
  | fn (f : Value → Value)

/-- `d` is the value `undefined` (as opposed to any other value or any
function). -/
def DefaultSlot.isUndefinedVal : DefaultSlot → Bool
  | .val .undefined => true
  | _ => false

/-- The rule chain (src/handlers.ts `FjordHandler`): an append-only rule
list, the `optional` flag and the default slot. -/
structure FjordHandler where
  rules : List Rule
  m_optional : Bool
  m_default : DefaultSlot

/-- The `check` loop body over an explicit rule list: evaluate each rule in
order, await it, and return the first non-`true` result (with the effects
emitted so far). -/
def checkRules : List Rule → Value → String → Value → RuleResult × List Nat
  | [], _, _, _ => (.bool true, [])
  | r :: rs, v, k, root =>
    let res := r v k root
    if res.1 = RuleResult.bool true then
      let rest := checkRules rs v k root
      (rest.1, res.2 ++ rest.2)
    else res

/-- src/handlers.ts `FjordHandler.check`. -/
def FjordHandler.check (h : FjordHandler) (v : Value) (k : String) (root : Value) :
    RuleResult × List Nat :=
  checkRules h.rules v k root

/-- src/handlers.ts `FjordHandler.optional`. -/
def FjordHandler.optional (h : FjordHandler) : FjordHandler :=
  { h with m_optional := true }

/-- src/handlers.ts `FjordHandler.default`: stores the given value or
function in the slot (there is no separate has-default flag). -/
def FjordHandler.default (h : FjordHandler) (value : DefaultSlot) : FjordHandler :=
  { h with m_default := value }

/-- src/handlers.ts `FjordHandler.isOptional`. -/
def FjordHandler.isOptional (h : FjordHandler) : Bool := h.m_optional

/-- src/handlers.ts `FjordHandler.hasDefault`: `m_default !== undefined`. -/
def FjordHandler.hasDefault (h : FjordHandler) : Bool :=
  match h.m_default with
  | .val .undefined => false
  | _ => true

/-- src/handlers.ts `FjordHandler.getDefault`: when the slot is not
`undefined`, apply it to the root if it is a function, else return it; the
implicit return on an `undefined` slot yields `undefined`. -/
def FjordHandler.getDefault (h : FjordHandler) (root : Value) : Value :=
  match h.m_default with
  | .val v => v
  | .fn f => f root

/-- Appends a rule to the chain and returns the same chain (the fluent
`this.rules.push(...); return this` pattern). -/
def FjordHandler.pushRule (h : FjordHandler) (r : Rule) : FjordHandler :=
  { h with rules := h.rules ++ [r] }

namespace FjordString

/-- `new FjordString(err)`: a chain whose first rule is the string type
check `isString(v) || err || false`. -/
def new (err : Option ErrPayload) : FjordHandler :=
  { rules := [predRule jsIsString err], m_optional := false, m_default := .val .undefined }

/-- String length as a JS number.  Accessing `.length` of a non-string would
throw in the source; the type rule in front of every string constraint makes
that unreachable, and the model returns `NaN` (all comparisons false). -/
def strLen : Value → JSNum
  | .str s => .finite s.length
  | _ => .nan

/-- `FjordString.equals`: `v === val || err || false`. -/
def equals (h : FjordHandler) (val : String) (err : Option ErrPayload) : FjordHandler :=
  h.pushRule (predRule (fun v => match v with | .str s => s == val | _ => false) err)

/-- `FjordString.min`: `v.length >= len || err || false`. -/
def min (h : FjordHandler) (len : JSNum) (err : Option ErrPayload) : FjordHandler :=
  h.pushRule (predRule (fun v => (strLen v).ge len) err)

/-- `FjordString.max`: `v.length <= len || err || false`. -/
def max (h : FjordHandler) (len : JSNum) (err : Option ErrPayload) : FjordHandler :=
  h.pushRule (predRule (fun v => (strLen v).le len) err)

/-- `FjordString.matches` (renamed, `matches` is reserved in Lean):
`regex.test(v) || err || false`, with the regular expression modelled as its
match predicate on strings. -/
def matchesRx (h : FjordHandler) (rx : String → Bool) (err : Option ErrPayload) : FjordHandler :=
  h.pushRule (predRule (fun v => match v with | .str s => rx s | _ => false) err)

/-- `FjordString.custom`: pushes the caller's rule unchanged. -/
def custom (h : FjordHandler) (f : Rule) : FjordHandler := h.pushRule f

end FjordString

namespace FjordBoolean

/-- `new FjordBoolean(err)`. -/
def new (err : Option ErrPayload) : FjordHandler :=
  { rules := [predRule jsIsBoolean err], m_optional := false, m_default := .val .undefined }

/-- `FjordBoolean.equals`. -/
def equals (h : FjordHandler) (val : Bool) (err : Option ErrPayload) : FjordHandler :=
  h.pushRule (predRule (fun v => match v with | .bool b => b == val | _ => false) err)

/-- `FjordBoolean.true`: `!!v || err || false`. -/
def true' (h : FjordHandler) (err : Option ErrPayload) : FjordHandler :=
  h.pushRule (predRule (fun v => match v with | .bool b => b | _ => false) err)

/-- `FjordBoolean.false`: `!v || err || false`. -/
def false' (h : FjordHandler) (err : Option ErrPayload) : FjordHandler :=
  h.pushRule (predRule (fun v => match v with | .bool b => !b | _ => true) err)

end FjordBoolean

namespace FjordNumber

/-- `new FjordNumber(err)`. -/
def new (err : Option ErrPayload) : FjordHandler :=
  { rules := [predRule jsIsNumber err], m_optional := false, m_default := .val .undefined }

/-- `FjordNumber.equals`: `v === val || err || false`. -/
def equals (h : FjordHandler) (val : JSNum) (err : Option ErrPayload) : FjordHandler :=
  h.pushRule (predRule (fun v => match v with | .num n => n == val && !n.isNaN | _ => false) err)

/-- `FjordNumber.min`: `v >= val || err || false`.  The rule only ever sees
numbers (the type rule precedes it); JS coercion for other operands is not
modelled and yields false. -/
def min (h : FjordHandler) (val : JSNum) (err : Option ErrPayload) : FjordHandler :=
  h.pushRule (predRule (fun v => match v with | .num n => n.ge val | _ => false) err)

/-- `FjordNumber.max`: `v <= val || err || false`. -/
def max (h : FjordHandler) (val : JSNum) (err : Option ErrPayload) : FjordHandler :=
  h.pushRule (predRule (fun v => match v with | .num n => n.le val | _ => false) err)

/-- `FjordNumber.custom`. -/
def custom (h : FjordHandler) (f : Rule) : FjordHandler := h.pushRule f

end FjordNumber

namespace FjordInteger

/-- `new FjordInteger(err)`: the number chain with the extra rule
`isInteger(v) || err || false` appended. -/
def new (err : Option ErrPayload) : FjordHandler :=
  (FjordNumber.new err).pushRule (predRule jsIsInteger err)

end FjordInteger

namespace FjordFloat

/-- `new FjordFloat(err)`: the number chain with the extra rule
`isFloat(v) || err || false` appended. -/
def new (err : Option ErrPayload) : FjordHandler :=
  (FjordNumber.new err).pushRule (predRule jsIsFloat err)

end FjordFloat

namespace FjordObject

/-- `new FjordObject(err)`. -/
def new (err : Option ErrPayload) : FjordHandler :=
  { rules := [predRule jsIsObject err], m_optional := false, m_default := .val .undefined }

/-- `FjordObject.custom`. -/
def custom (h : FjordHandler) (f : Rule) : FjordHandler := h.pushRule f

end FjordObject

namespace FjordAny

/-- `new FjordAny(err)`: the single built-in rule is
`v !== undefined || err || false`. -/
def new (err : Option ErrPayload) : FjordHandler :=
  { rules := [predRule (fun v => !v.isUndefined) err], m_optional := false, m_default := .val .undefined }

/-- `FjordAny.custom`. -/
def custom (h : FjordHandler) (f : Rule) : FjordHandler := h.pushRule f

end FjordAny

namespace FjordArray

/-- `new FjordArray(err)`: the first rule is `isArray(v) || err || false`.
The self-referential element view `of` returns the same chain and needs no
separate model. -/
def new (err : Option ErrPayload) : FjordHandler :=
  { rules := [predRule jsIsArray err], m_optional := false, m_default := .val .undefined }

/-- Array length as a JS number (unreachable on non-arrays, see
`FjordString.strLen`). -/
def arrLen : Value → JSNum
  | .arr xs => .finite xs.length
  | _ => .nan

/-- `Array.prototype.every` over the members (false on a non-array, where
the source would throw; unreachable past the type rule). -/
def arrEvery (p : Value → Bool) : Value → Bool
  | .arr xs => xs.all p
  | _ => false

/-- `Array.prototype.some` over the members. -/
def arrSome (p : Value → Bool) : Value → Bool
  | .arr xs => xs.any p
  | _ => false

/-- `Array.prototype.includes` membership, via strict equality on primitive
values; object and array members compare by reference in JS, which this
model does not represent, so they never match here. -/
def jsIncludesEq : Value → Value → Bool
  | .undefined, .undefined => true
  | .null, .null => true
  | .bool a, .bool b => a == b
  | .num a, .num b => a == b
  | .str a, .str b => a == b
  | _, _ => false

/-- `FjordArray.min`: `v.length >= len || err || false`. -/
def min (h : FjordHandler) (len : JSNum) (err : Option ErrPayload) : FjordHandler :=
  h.pushRule (predRule (fun v => (arrLen v).ge len) err)

/-- `FjordArray.max`: `v.length <= len || err || false`. -/
def max (h : FjordHandler) (len : JSNum) (err : Option ErrPayload) : FjordHandler :=
  h.pushRule (predRule (fun v => (arrLen v).le len) err)

/-- `FjordArray.includes`: `v.includes(val) || err || false`. -/
def includes (h : FjordHandler) (val : Value) (err : Option ErrPayload) : FjordHandler :=
  h.pushRule (predRule (arrSome (jsIncludesEq val)) err)

/-- `FjordArray.strings`: `v.every(isString) || err || false`. -/
def strings (h : FjordHandler) (err : Option ErrPayload) : FjordHandler :=
  h.pushRule (predRule (arrEvery jsIsString) err)

/-- `FjordArray.numbers`. -/
def numbers (h : FjordHandler) (err : Option ErrPayload) : FjordHandler :=
  h.pushRule (predRule (arrEvery jsIsNumber) err)

/-- `FjordArray.integers`. -/
def integers (h : FjordHandler) (err : Option ErrPayload) : FjordHandler :=
  h.pushRule (predRule (arrEvery jsIsInteger) err)

/-- `FjordArray.floats`. -/
def floats (h : FjordHandler) (err : Option ErrPayload) : FjordHandler :=
  h.pushRule (predRule (arrEvery jsIsFloat) err)

/-- `FjordArray.arrays`. -/
def arrays (h : FjordHandler) (err : Option ErrPayload) : FjordHandler :=
  h.pushRule (predRule (arrEvery jsIsArray) err)

/-- `FjordArray.objects`. -/
def objects (h : FjordHandler) (err : Option ErrPayload) : FjordHandler :=
  h.pushRule (predRule (arrEvery jsIsObject) err)

/-- `FjordArray.every` with a caller predicate. -/
def every (h : FjordHandler) (p : Value → Bool) (err : Option ErrPayload) : FjordHandler :=
  h.pushRule (predRule (arrEvery p) err)

/-- `FjordArray.some` with a caller predicate. -/
def some (h : FjordHandler) (p : Value → Bool) (err : Option ErrPayload) : FjordHandler :=
  h.pushRule (predRule (arrSome p) err)

/-- `FjordArray.custom`. -/
def custom (h : FjordHandler) (f : Rule) : FjordHandler := h.pushRule f

end FjordArray

/-- Splits a list of characters on a separator; the number of segments is
one more than the number of separators. -/
def splitSegs (sep : Char) : List Char → List (List Char)
  | [] => [[]]
  | c :: cs =>
    let rest := splitSegs sep cs
    if c = sep then [] :: rest
    else match rest with
      | [] => [[c]]
      | seg :: segs => (c :: seg) :: segs

/-- Modelled from the spec: the Path Accessor of the external
`@dotvirus/ptree` dependency is not under src/; per spec section 3 a path is
"a string composed of dot-separated segments". -/
def splitPath (p : String) : List String :=
  (splitSegs '.' p.data).map String.mk

/-- Reads key `k` of an association-list object; a missing key is
`undefined`. -/
def objLookup (fields : List (String × Value)) (k : String) : Value :=
  match fields with
  | [] => .undefined
  | (k2, v) :: rest => if k2 == k then v else objLookup rest k

/-- Sets key `k` of an association-list object, replacing an existing
binding or appending a new one. -/
def objInsert (fields : List (String × Value)) (k : String) (v : Value) :
    List (String × Value) :=
  match fields with
  | [] => [(k, v)]
  | (k2, v2) :: rest =>
    if k2 == k then (k2, v) :: rest else (k2, v2) :: objInsert rest k v

/-- Modelled from the spec: Path Accessor read over a segment list (spec
section 4.1): "reads the value at path, returning undefined if any segment
along the way is absent (never throws for a missing path)"; paths may
traverse arrays by numeric index. -/
def getSegs : Value → List String → Value
  | v, [] => v
  | .obj fields, s :: rest => getSegs (objLookup fields s) rest
  | .arr xs, s :: rest =>
    match s.toNat? with
    | some i => getSegs (xs.getD i .undefined) rest
    | none => .undefined
  | _, _ :: _ => .undefined

/-- Modelled from the spec: Path Accessor write over a segment list (spec
section 4.1): "writes value at path, creating any missing intermediate
mapping along the way"; writing through a non-container intermediate is
undefined behaviour which this model resolves by replacing it with a fresh
mapping, and an out-of-range array index leaves the array unchanged. -/
def setSegs : Value → List String → Value → Value
  | _, [], nv => nv
  | .obj fields, s :: rest, nv =>
    .obj (objInsert fields s (setSegs (objLookup fields s) rest nv))
  | .arr xs, s :: rest, nv =>
    match s.toNat? with
    | some i => .arr (xs.set i (setSegs (xs.getD i .undefined) rest nv))
    | none => .arr xs
  | _, s :: rest, nv => .obj [(s, setSegs .undefined rest nv)]

/-- Modelled from the spec: `tree.get(path)` of `@dotvirus/ptree`. -/
def ptGet (root : Value) (path : String) : Value :=
  getSegs root (splitPath path)

/-- Modelled from the spec: `tree.set(path, value)` of `@dotvirus/ptree`;
the source mutates the root in place, the model returns the updated root. -/
def ptSet (root : Value) (path : String) (nv : Value) : Value :=
  setSegs root (splitPath path) nv

/-- One observable action of a `validate` call: an opaque effect of a custom
rule, or the invocation of a lifecycle hook with the exact arguments the
orchestrator passes (src/index.ts always invokes the single global `before`
and `after` functions, plus the field's own one when declared). -/
inductive Event where
  | eff (tag : Nat)
  | beforeCall (value : Value) (key : String) (root : Value)
  | fieldBeforeCall (value : Value) (key : String) (root : Value)
  | afterCall (value : Value) (key : String) (root : Value)
  | fieldAfterCall (value : Value) (key : String) (root : Value)
  | onFailCall (value : Value) (key : String) (root : Value)
  | onDefaultCall (value : Value) (key : String) (root : Value)
  | onSuccessCall (root : Value)

/-- True exactly on `onSuccessCall` events. -/
def Event.isSuccessCall : Event → Bool
  | .onSuccessCall _ => true
  | _ => false

/-- A transform function `(val, key, root) => unknown` whose result the
orchestrator writes back at the field's path. -/
abbrev Transform := Value → String → Value → Value

/-- The recognised instance options (src/index.ts `IFjordOptions`).  The
transforms may each be a single function or an ordered list; the source
normalises with `normalizeToArray`, so the model holds the normalised list.
The hook options `before`, `after`, `onSuccess`, `onFail` and `onDefault`
are caller-supplied void functions; the model records their invocations as
trace events instead of storing the functions. -/
structure IFjordOptions where
  transformBefore : List Transform
  transformAfter : List Transform

/-- The constructor defaults: `transformBefore` and `transformAfter` each
default to the single identity function `async v => v`. -/
def defaultFjordOptions : IFjordOptions :=
  { transformBefore := [fun v _ _ => v], transformAfter := [fun v _ _ => v] }

/-- A field declaration (src/index.ts `IValidationRule`): a path, optional
per-field hooks, optional per-field transform lists, and the rule chain.
The optional void hooks `before` and `after` are modelled by their presence
(`hasBefore` / `hasAfter`), which determines the extra hook invocation. -/
structure ValidationRule where
  key : String
  hasBefore : Bool
  transformBefore : List Transform
  transformAfter : List Transform
  hasAfter : Bool
  handler : FjordHandler

/-- `runBefore`: the global `before` function, then the field's own one when
declared, each called with `(value, key, root)`. -/
def beforeEvents (rule : ValidationRule) (v : Value) (root : Value) : List Event :=
  .beforeCall v rule.key root ::
    (if rule.hasBefore then [.fieldBeforeCall v rule.key root] else [])

/-- `runAfter`: the global `after` function, then the field's own one when
declared. -/
def afterEvents (rule : ValidationRule) (v : Value) (root : Value) : List Event :=
  .afterCall v rule.key root ::
    (if rule.hasAfter then [.fieldAfterCall v rule.key root] else [])

/-- The pre/post transform loop of `validateRules`:
`for (const transformer of list) tree.set(key, await transformer(value, key, root))`.
The local `value` is not updated inside the loop, so every transformer
receives the value read before the loop, while the root accumulates the
successive writes.  Returns the root after the loop. -/
def runTransforms (ts : List Transform) (value : Value) (key : String) (root : Value) :
    Value :=
  match ts with
  | [] => root
  | t :: rest => runTransforms rest value key (ptSet root key (t value key root))

/-- The outcome of the per-field loop body: an early `return` aborting the
whole call, or falling through / `continue` to the next field. -/
inductive FieldOutcome where
  | fail (res : RuleResult) (root : Value) (evs : List Event)
  | ok (root : Value) (evs : List Event)

/-- The loop body of `FjordInstance.validateRules` (src/index.ts lines
177-239) for one field declaration: read the value, run the before hooks,
do the presence/optional/default branching, run the pre-transforms, the
chain's `check`, the post-transforms and the after hooks. -/
def processField (o : IFjordOptions) (root : Value) (rule : ValidationRule) :
    FieldOutcome :=
  let value := ptGet root rule.key
  let bevs := beforeEvents rule value root
  if value.isUndefined && !rule.handler.isOptional then
    .fail (.bool false) root (bevs ++ [.onFailCall value rule.key root])
  else if value.isUndefined && rule.handler.isOptional then
    if rule.handler.hasDefault then
      let root2 := ptSet root rule.key (rule.handler.getDefault root)
      .ok root2 (bevs ++ [.onDefaultCall value rule.key root2])
    else
      .ok root bevs
  else
    let pre := o.transformBefore ++ rule.transformBefore
    let root1 := runTransforms pre value rule.key root
    let value1 := if pre.isEmpty then value else ptGet root1 rule.key
    let c := checkRules rule.handler.rules value1 rule.key root1
    if c.1 = RuleResult.bool true then
      let post := o.transformAfter ++ rule.transformAfter
      let root2 := runTransforms post value1 rule.key root1
      let value2 := if post.isEmpty then value1 else ptGet root2 rule.key
      .ok root2 (bevs ++ c.2.map Event.eff ++ afterEvents rule value2 root2)
    else
      .fail c.1 root1 (bevs ++ c.2.map Event.eff ++ [.onFailCall value1 rule.key root1])

/-- `FjordInstance.validateRules`: process the field declarations in array
order; the first aborting field yields its result, otherwise the global
`onSuccess(root)` hook runs and the boolean `true` is returned.  The result
is the returned value, the final root and the event trace. -/
def validateRules (o : IFjordOptions) (root : Value) :
    List ValidationRule → RuleResult × Value × List Event
  | [] => (.bool true, root, [.onSuccessCall root])
  | rule :: rest =>
    match processField o root rule with
    | .fail res root2 evs => (res, root2, evs)
    | .ok root2 evs =>
      let r := validateRules o root2 rest
      (r.1, r.2.1, evs ++ r.2.2)

/-- The second argument of `validate` as JavaScript receives it: an actual
array of field declarations, or any other value. -/
inductive RulesArg where
  | arr (rules : List ValidationRule)
  | nonArray (v : Value)

/-- `FjordInstance.validate`: delegates to `validateRules` when the rules
argument is an array, otherwise falls through and returns `undefined`
(modelled as `none`) without touching the root. -/
def validate (o : IFjordOptions) (obj : Value) (rules : RulesArg) :
    Option RuleResult × Value × List Event :=
  match rules with
  | .arr rs =>
    let r := validateRules o obj rs
    (some r.1, r.2.1, r.2.2)
  | .nonArray _ => (none, obj, [])

/-- Every field declaration passes: at each step, either the value at the
field's path is undefined and the chain is optional, or the value is present
and the chain's `check` on the (pre-transformed) value returns `true`.
Mirrors the per-field state evolution of `validateRules` so "passes" is
evaluated against the root each field actually observes. -/
def allFieldsPass (o : IFjordOptions) (root : Value) : List ValidationRule → Bool
  | [] => true
  | rule :: rest =>
    match processField o root rule with
    | .fail _ _ _ => false
    | .ok root2 _ => allFieldsPass o root2 rest

/-- A transform that depends only on the value, as `async v => v.trim()`
style callers write them. -/
def liftTransform (f : Value → Value) : Transform :=
  fun v _ _ => f v

/-- A rule chain passes a given value exactly when its `check` returns the
boolean `true`. -/
def chainPasses (h : FjordHandler) (v : Value) (k : String) (root : Value) : Bool :=
  (h.check v k root).1 == RuleResult.bool true

/-- When every rule of the list passes, `checkRules` returns `true` and the
effects of all rules in append order. -/
theorem checkRules_all_pass (v : Value) (k : String) (root : Value) (rs : List Rule)
    (h : ∀ r ∈ rs, (r v k root).1 = RuleResult.bool true) :
    checkRules rs v k root
      = (RuleResult.bool true, (rs.map fun r => (r v k root).2).flatten) := by
  induction rs with
  | nil => rfl
  | cons r rs ih =>
    have hr := h r (by simp)
    have ihh := ih (fun r' hr' => h r' (by simp [hr']))
    simp [checkRules, hr, ihh]

/-- When every rule of `pre` passes and `bad` fails, `checkRules` over
`pre ++ bad :: post` returns `bad`'s result, and the emitted effects are
exactly those of `pre` followed by those of `bad`: nothing of `post` runs. -/
theorem checkRules_prefix_fail (v : Value) (k : String) (root : Value)
    (pre post : List Rule) (bad : Rule)
    (hpre : ∀ r ∈ pre, (r v k root).1 = RuleResult.bool true)
    (hbad : (bad v k root).1 ≠ RuleResult.bool true) :
    checkRules (pre ++ bad :: post) v k root
      = ((bad v k root).1, (pre.map fun r => (r v k root).2).flatten ++ (bad v k root).2) := by
  induction pre with
  | nil => simp [checkRules, hbad]
  | cons r rs ih =>
    have hr := hpre r (by simp)
    have ihh := ih (fun r' hr' => hpre r' (by simp [hr']))
    simp [checkRules, hr, ihh]

/-- C1: `check(value, key, root)` evaluates the chain's rules strictly in
append order; it returns `true` when every rule returns `true`, and it
returns the first non-`true` result immediately, the rules appended after
the failing one never executing (their effects are absent from the trace,
which contains exactly the effects of the passing prefix and of the failing
rule, in order). -/
theorem fjord_C1 (v : Value) (k : String) (root : Value) (mo : Bool) (md : DefaultSlot)
    (pre post : List Rule) (bad : Rule)
    (hpre : ∀ r ∈ pre, (r v k root).1 = RuleResult.bool true)
    (hbad : (bad v k root).1 ≠ RuleResult.bool true) :
    (FjordHandler.mk (pre ++ bad :: post) mo md).check v k root
      = ((bad v k root).1, (pre.map fun r => (r v k root).2).flatten ++ (bad v k root).2)
    ∧ ∀ h2 : FjordHandler, (∀ r ∈ h2.rules, (r v k root).1 = RuleResult.bool true) →
        h2.check v k root
          = (RuleResult.bool true, (h2.rules.map fun r => (r v k root).2).flatten) :=
  ⟨checkRules_prefix_fail v k root pre post bad hpre hbad,
   fun h2 hh => checkRules_all_pass v k root h2.rules hh⟩

/-- Witness for C1: the chain `number().min(5).max(2)` on value `1` — the
type rule passes, `min(5)` fails, and the chain's result is exactly the min
rule's failure (`false`), with the `max` rule never evaluated. -/
theorem fjord_C1_witness :
    (∀ r ∈ [predRule jsIsNumber (none : Option ErrPayload)],
        (r (.num (.finite 1)) "a" (.obj [])).1 = RuleResult.bool true)
    ∧ ((predRule (fun v => match v with | .num n => n.ge (.finite 5) | _ => false) none)
        (.num (.finite 1)) "a" (.obj [])).1 ≠ RuleResult.bool true
    ∧ (FjordNumber.max (FjordNumber.min (FjordNumber.new none) (.finite 5) none)
        (.finite 2) none).check (.num (.finite 1)) "a" (.obj [])
      = (RuleResult.bool false, []) := by
  refine ⟨?_, ?_, ?_⟩
  · intro r hr
    simp only [List.mem_singleton] at hr
    subst hr
    rfl
  · decide
  · exact (fjord_C1 (.num (.finite 1)) "a" (.obj []) false (.val .undefined)
      [predRule jsIsNumber none]
      [predRule (fun v => match v with | .num n => n.le (.finite 2) | _ => false) none]
      (predRule (fun v => match v with | .num n => n.ge (.finite 5) | _ => false) none)
      (by intro r hr; simp only [List.mem_singleton] at hr; subst hr; rfl)
      (by decide)).1

/-- C3: when the value read at a field's path is `undefined` and the chain
is not optional, `validateRules` invokes the global `onFail` hook (with the
undefined value, the key and the untouched root) and returns the boolean
`false` immediately: the root is unchanged and the trace contains only this
field's before-hook calls and the `onFail` call — no rule effect, transform
write or hook of any later field declaration occurs.  Stated for the field
at the head of the remaining declaration list, which is the state
`validateRules` is in whenever it reaches such a field. -/
theorem fjord_C3 (o : IFjordOptions) (root : Value) (rule : ValidationRule)
    (rest : List ValidationRule)
    (hu : ptGet root rule.key = Value.undefined)
    (hopt : rule.handler.m_optional = false) :
    validateRules o root (rule :: rest)
      = (RuleResult.bool false, root,
         beforeEvents rule Value.undefined root ++ [Event.onFailCall Value.undefined rule.key root])
    ∧ validate o root (.arr (rule :: rest))
      = (some (RuleResult.bool false), root,
         beforeEvents rule Value.undefined root
           ++ [Event.onFailCall Value.undefined rule.key root]) := by
  have hpf : processField o root rule
      = .fail (.bool false) root
          (beforeEvents rule Value.undefined root
            ++ [Event.onFailCall Value.undefined rule.key root]) := by
    simp [processField, hu, FjordHandler.isOptional, hopt, Value.isUndefined]
  exact ⟨by simp [validateRules, hpf], by simp [validate, validateRules, hpf]⟩

/-- Witness for C3: root `{}` against a required integer field `a` followed
by a second field `b` that declares its own before/after hooks; the call
returns `false` with only field `a`'s events in the trace. -/
theorem fjord_C3_witness :
    ptGet (.obj []) "a" = Value.undefined
    ∧ (FjordInteger.new none).m_optional = false
    ∧ validateRules defaultFjordOptions (.obj [])
        [⟨"a", false, [], [], false, FjordInteger.new none⟩,
         ⟨"b", true, [], [], true, FjordInteger.new none⟩]
      = (RuleResult.bool false, .obj [],
         [Event.beforeCall Value.undefined "a" (.obj []),
          Event.onFailCall Value.undefined "a" (.obj [])]) := by
  refine ⟨rfl, rfl, ?_⟩
  have h := (fjord_C3 defaultFjordOptions (.obj [])
    ⟨"a", false, [], [], false, FjordInteger.new none⟩
    [⟨"b", true, [], [], true, FjordInteger.new none⟩] rfl rfl).1
  exact h.trans (by rfl)

/-- C4: when the value is `undefined`, the chain is optional and it has a
default, `validateRules` writes the default (a value, or a function default
applied to the current root) at the field's path, invokes the global
`onDefault` hook, and proceeds directly to the remaining field declarations
on the updated root — no rule of that chain is evaluated and no transform or
after-hook runs for that field.  Second conjunct: concrete scenario E, root
`{}` with declaration `{c: integer().optional().default(null)}` yields
`true` and the root becomes `{c: null}`. -/
theorem fjord_C4 (o : IFjordOptions) (root : Value) (rule : ValidationRule)
    (rest : List ValidationRule)
    (hu : ptGet root rule.key = Value.undefined)
    (hopt : rule.handler.m_optional = true)
    (hd : rule.handler.hasDefault = true) :
    validateRules o root (rule :: rest)
      = ((validateRules o (ptSet root rule.key (rule.handler.getDefault root)) rest).1,
         (validateRules o (ptSet root rule.key (rule.handler.getDefault root)) rest).2.1,
         beforeEvents rule Value.undefined root
           ++ Event.onDefaultCall Value.undefined rule.key
                (ptSet root rule.key (rule.handler.getDefault root))
             :: (validateRules o (ptSet root rule.key (rule.handler.getDefault root)) rest).2.2)
    ∧ validate defaultFjordOptions (.obj [])
        (.arr [⟨"c", false, [], [], false, (FjordInteger.new none).optional.default (.val .null)⟩])
      = (some (RuleResult.bool true), .obj [("c", Value.null)],
         [Event.beforeCall Value.undefined "c" (.obj []),
          Event.onDefaultCall Value.undefined "c" (.obj [("c", Value.null)]),
          Event.onSuccessCall (.obj [("c", Value.null)])]) := by
  have hpf : processField o root rule
      = .ok (ptSet root rule.key (rule.handler.getDefault root))
          (beforeEvents rule Value.undefined root
            ++ [Event.onDefaultCall Value.undefined rule.key
                  (ptSet root rule.key (rule.handler.getDefault root))]) := by
    simp [processField, hu, FjordHandler.isOptional, hopt, hd, Value.isUndefined]
  exact ⟨by simp [validateRules, hpf], by rfl⟩

/-- Witness for C4 at scenario E itself: root `{}`, declaration
`{c: integer().optional().default(null)}`. -/
theorem fjord_C4_witness :
    ptGet (.obj []) "c" = Value.undefined
    ∧ ((FjordInteger.new none).optional.default (.val .null)).m_optional = true
    ∧ ((FjordInteger.new none).optional.default (.val .null)).hasDefault = true
    ∧ validateRules defaultFjordOptions (.obj [])
        [⟨"c", false, [], [], false, (FjordInteger.new none).optional.default (.val .null)⟩]
      = (RuleResult.bool true, .obj [("c", Value.null)],
         [Event.beforeCall Value.undefined "c" (.obj []),
          Event.onDefaultCall Value.undefined "c" (.obj [("c", Value.null)]),
          Event.onSuccessCall (.obj [("c", Value.null)])]) := by
  refine ⟨rfl, rfl, rfl, ?_⟩
  have h := (fjord_C4 defaultFjordOptions (.obj [])
    ⟨"c", false, [], [], false, (FjordInteger.new none).optional.default (.val .null)⟩ []
    rfl rfl rfl).1
  exact h.trans (by rfl)

/-- C10: in the default-injection branch, the global `onDefault` hook is
invoked with `undefined` as its value argument — the value read before the
default was written — and not with the newly written default value, whatever
that default is. -/
theorem fjord_C10 (o : IFjordOptions) (root : Value) (rule : ValidationRule)
    (rest : List ValidationRule)
    (hu : ptGet root rule.key = Value.undefined)
    (hopt : rule.handler.m_optional = true)
    (hd : rule.handler.hasDefault = true) :
    (validateRules o root (rule :: rest)).2.2
      = beforeEvents rule Value.undefined root
          ++ Event.onDefaultCall Value.undefined rule.key
               (ptSet root rule.key (rule.handler.getDefault root))
            :: (validateRules o (ptSet root rule.key (rule.handler.getDefault root)) rest).2.2 := by
  have hpf : processField o root rule
      = .ok (ptSet root rule.key (rule.handler.getDefault root))
          (beforeEvents rule Value.undefined root
            ++ [Event.onDefaultCall Value.undefined rule.key
                  (ptSet root rule.key (rule.handler.getDefault root))]) := by
    simp [processField, hu, FjordHandler.isOptional, hopt, hd, Value.isUndefined]
  simp [validateRules, hpf]

/-- Witness for C10: an absent optional field with default `7` — the root
receives `7`, but the `onDefault` event carries the value `undefined`. -/
theorem fjord_C10_witness :
    ptGet (.obj []) "c" = Value.undefined
    ∧ ((FjordAny.new none).optional.default (.val (.num (.finite 7)))).m_optional = true
    ∧ ((FjordAny.new none).optional.default (.val (.num (.finite 7)))).hasDefault = true
    ∧ (validateRules defaultFjordOptions (.obj [])
        [⟨"c", false, [], [], false,
          (FjordAny.new none).optional.default (.val (.num (.finite 7)))⟩]).2.2
      = [Event.beforeCall Value.undefined "c" (.obj []),
         Event.onDefaultCall Value.undefined "c" (.obj [("c", Value.num (.finite 7))]),
         Event.onSuccessCall (.obj [("c", Value.num (.finite 7))])] := by
  refine ⟨rfl, rfl, rfl, ?_⟩
  have h := fjord_C10 defaultFjordOptions (.obj [])
    ⟨"c", false, [], [], false, (FjordAny.new none).optional.default (.val (.num (.finite 7)))⟩ []
    rfl rfl rfl
  exact h.trans (by rfl)

/-- C9: when the second argument of `validate` is not an array, the call
returns `undefined` (`none`) — neither the `true` success signal nor any
failure payload — the root is returned untouched and no hook invocation or
rule effect is recorded. -/
theorem fjord_C9 (o : IFjordOptions) (obj v : Value) :
    validate o obj (.nonArray v) = (none, obj, []) := rfl

/-- Counterexample to C7 as stated: a chain on which `default(undefined)`
was explicitly invoked reports `hasDefault() = false`, not `true` — the
implementation keeps no separate has-default flag and only tests
`m_default !== undefined`. -/
theorem fjord_C7_counterexample :
    ¬ (((FjordAny.new none).default (DefaultSlot.val Value.undefined)).hasDefault = true) := by
  decide

/-- C7 amended: `hasDefault()` returns true exactly when the stored default
slot is not the value `undefined` — i.e. when `default(x)` was last invoked
with a function or a value other than `undefined`.  A freshly constructed
chain of any kind reports `false`, but `default(undefined)` is
indistinguishable from never having called `default` at all. -/
theorem fjord_C7 (h : FjordHandler) (d : DefaultSlot) (e : Option ErrPayload) :
    (h.default d).hasDefault = !d.isUndefinedVal
    ∧ (FjordString.new e).hasDefault = false
    ∧ (FjordBoolean.new e).hasDefault = false
    ∧ (FjordNumber.new e).hasDefault = false
    ∧ (FjordInteger.new e).hasDefault = false
    ∧ (FjordFloat.new e).hasDefault = false
    ∧ (FjordArray.new e).hasDefault = false
    ∧ (FjordObject.new e).hasDefault = false
    ∧ (FjordAny.new e).hasDefault = false := by
  refine ⟨?_, rfl, rfl, rfl, rfl, rfl, rfl, rfl, rfl⟩
  cases d with
  | val v => cases v <;> rfl
  | fn f => rfl

/-- `cond || err || false` yields the pass value `true` exactly when the
condition holds: a supplied payload is a number or a string and never equals
the boolean `true`. -/
theorem orErr_eq_true (c : Bool) (e : Option ErrPayload) :
    (orErr c e = RuleResult.bool true) ↔ c = true := by
  cases c with
  | true => simp [orErr]
  | false =>
    cases e with
    | none => simp [orErr]
    | some p =>
      cases hp : p.truthy <;> cases p <;>
        simp_all [orErr, ErrPayload.toResult]

/-- A two-rule chain of predicate rules passes exactly when both predicates
hold of the value. -/
theorem check_two_pred (p1 p2 : Value → Bool) (e1 e2 : Option ErrPayload)
    (v : Value) (k : String) (root : Value) :
    ((checkRules [predRule p1 e1, predRule p2 e2] v k root).1 = RuleResult.bool true)
      ↔ (p1 v = true ∧ p2 v = true) := by
  cases h1 : p1 v <;> cases h2 : p2 v <;>
    simp [checkRules, predRule, h1, h2, orErr_eq_true]

/-- Counterexample to C8 as stated: the `float()` chain passes positive
infinity, which is not a finite number — `Number(Infinity) === Infinity`
holds and `Infinity % 1` is `NaN`, which is `!== 0`, so the built-in float
rule does not test finiteness. -/
theorem fjord_C8_counterexample :
    ((FjordFloat.new none).check (.num .posInf) "k" (.obj [])).1 = RuleResult.bool true
    ∧ JSNum.posInf.isFinite = false :=
  ⟨rfl, rfl⟩

/-- C8 amended: the float kind constructor builds a number chain with one
extra rule testing `Number(v) === v && v % 1 !== 0`; the chain's check
passes `v` exactly when `v` is a number, is not `NaN`, and its JS remainder
modulo 1 is nonzero — which holds for every finite non-integral number and
also for both infinities (their remainder is `NaN`, which is nonzero), so
finiteness is not required. -/
theorem fjord_C8 (err : Option ErrPayload) (v : Value) (k : String) (root : Value) :
    (((FjordFloat.new err).check v k root).1 = RuleResult.bool true)
      ↔ ∃ n : JSNum, v = Value.num n ∧ n.isNaN = false ∧ n.mod1NeZero = true := by
  have hch : (FjordFloat.new err).check v k root
      = checkRules [predRule jsIsNumber err, predRule jsIsFloat err] v k root := rfl
  rw [hch, check_two_pred]
  cases v <;> simp [jsIsNumber, jsIsFloat]

/-- Counterexample to C6 as stated: a falsy payload is not returned
verbatim.  `string().min(5, "")` on the too-short string `"ab"` returns the
boolean `false`, not the supplied empty string, and `number().max(2, 0)` on
`9` returns `false`, not the supplied `0` — `cond || err || false` drops
falsy payloads. -/
theorem fjord_C6_counterexample :
    ((FjordString.min (FjordString.new none) (.finite 5) (some (.str ""))).check
        (.str "ab") "a" (.obj [])).1 = RuleResult.bool false
    ∧ RuleResult.bool false ≠ RuleResult.str ""
    ∧ ((FjordNumber.max (FjordNumber.new none) (.finite 2) (some (.num (.finite 0)))).check
        (.num (.finite 9)) "k" (.obj [])).1 = RuleResult.bool false
    ∧ RuleResult.bool false ≠ RuleResult.num (.finite 0) :=
  ⟨rfl, by decide, rfl, by decide⟩

/-- C6 amended: every built-in constraint rule has the shape
`cond || err || false`, so on failure it returns the supplied payload
exactly when that payload is truthy (a nonzero non-`NaN` number or a
nonempty string); with an omitted or falsy payload (`0`, `""`, `NaN`) it
returns the boolean `false`.  Last conjunct: concrete scenario B — root
`{a: "str"}` with `[{a: integer("Must be an integer")}]` returns the string
"Must be an integer". -/
theorem fjord_C6 :
    (∀ (e : ErrPayload) (p : Value → Bool) (v : Value) (k : String) (root : Value),
        e.truthy = true → p v = false →
          ((predRule p (some e)) v k root).1 = e.toResult)
    ∧ (∀ (e : ErrPayload) (p : Value → Bool) (v : Value) (k : String) (root : Value),
        e.truthy = false → p v = false →
          ((predRule p (some e)) v k root).1 = RuleResult.bool false)
    ∧ (∀ (p : Value → Bool) (v : Value) (k : String) (root : Value),
        p v = false → ((predRule p none) v k root).1 = RuleResult.bool false)
    ∧ validate defaultFjordOptions (.obj [("a", Value.str "str")])
        (.arr [⟨"a", false, [], [], false,
          FjordInteger.new (some (.str "Must be an integer"))⟩])
      = (some (RuleResult.str "Must be an integer"), .obj [("a", Value.str "str")],
         [Event.beforeCall (.str "str") "a" (.obj [("a", Value.str "str")]),
          Event.onFailCall (.str "str") "a" (.obj [("a", Value.str "str")])]) := by
  refine ⟨?_, ?_, ?_, rfl⟩
  · intro e p v k root ht hp
    simp [predRule, orErr, hp, ht]
  · intro e p v k root ht hp
    simp [predRule, orErr, hp, ht]
  · intro p v k root hp
    simp [predRule, orErr, hp]

/-- Witness for C6 with a truthy payload returned verbatim and the falsy
payload `0` collapsing to `false`. -/
theorem fjord_C6_witness :
    (ErrPayload.str "E").truthy = true
    ∧ ((fun _ : Value => false) Value.null) = false
    ∧ ((predRule (fun _ => false) (some (.str "E"))) Value.null "k" (.obj [])).1
        = (ErrPayload.str "E").toResult
    ∧ (ErrPayload.num (.finite 0)).truthy = false
    ∧ ((predRule (fun _ => false) (some (.num (.finite 0)))) Value.null "k" (.obj [])).1
        = RuleResult.bool false := by
  refine ⟨rfl, rfl, ?_, rfl, ?_⟩
  · exact fjord_C6.1 (.str "E") (fun _ => false) Value.null "k" (.obj []) rfl rfl
  · exact fjord_C6.2.1 (.num (.finite 0)) (fun _ => false) Value.null "k" (.obj []) rfl rfl

/-- Reading back the key just inserted returns the inserted value. -/
theorem objLookup_objInsert_self (fields : List (String × Value)) (k : String) (x : Value) :
    objLookup (objInsert fields k x) k = x := by
  induction fields with
  | nil => simp [objInsert, objLookup]
  | cons p rest ih =>
    obtain ⟨k2, v2⟩ := p
    cases hk : k2 == k <;> simp [objInsert, objLookup, hk, ih]

/-- For a single-segment path, `ptGet` on an object is the key lookup. -/
theorem ptGet_obj_single {k : String} (hseg : splitPath k = [k])
    (fields : List (String × Value)) :
    ptGet (.obj fields) k = objLookup fields k := by
  unfold ptGet
  rw [hseg]
  simp [getSegs]

/-- For a single-segment path, `ptSet` on an object is the key insert. -/
theorem ptSet_obj_single {k : String} (hseg : splitPath k = [k])
    (fields : List (String × Value)) (x : Value) :
    ptSet (.obj fields) k x = .obj (objInsert fields k x) := by
  unfold ptSet
  rw [hseg]
  simp [setSegs]

/-- Counterexample to C2 as stated: global `transformBefore = [t1, t2]` and
field-level `t3`, each appending a digit to the string value.  The claim
predicts the rule chain observes `t3(t2(t1("x"))) = "x123"`; the code passes
the stale original value to every transform, so the last write wins and the
chain observes (and the root stores) `t3("x") = "x3"`. -/
theorem fjord_C2_counterexample :
    (validateRules
        ⟨[liftTransform (fun v => match v with | Value.str s => Value.str (s ++ "1") | _ => v),
          liftTransform (fun v => match v with | Value.str s => Value.str (s ++ "2") | _ => v)], []⟩
        (.obj [("a", Value.str "x")])
        [⟨"a", false,
          [liftTransform (fun v => match v with | Value.str s => Value.str (s ++ "3") | _ => v)],
          [], false, FjordAny.new none⟩])
      = (RuleResult.bool true, Value.obj [("a", Value.str "x3")],
         [Event.beforeCall (Value.str "x") "a" (.obj [("a", Value.str "x")]),
          Event.afterCall (Value.str "x3") "a" (.obj [("a", Value.str "x3")]),
          Event.onSuccessCall (.obj [("a", Value.str "x3")])])
    ∧ ("x3" : String) ≠ "x123" :=
  ⟨rfl, by decide⟩

/-- C2 amended: with global `transformBefore = [t1, t2]` and field-level
`t3` on a present top-level field, every transform is invoked with the value
read before the transform loop (the write-back is not re-read between
transforms), each result is written via the path accessor, and the value
subsequently observed by the rule chain is the final read — the last
transform applied to the original value, `t3(original)`, not
`t3(t2(t1(original)))`. -/
theorem fjord_C2 (f1 f2 f3 : Value → Value) (k : String)
    (fields : List (String × Value))
    (hseg : splitPath k = [k])
    (hv : (objLookup fields k).isUndefined = false)
    (h3 : (f3 (objLookup fields k)).isUndefined = false) :
    validateRules ⟨[liftTransform f1, liftTransform f2], []⟩ (.obj fields)
        [⟨k, false, [liftTransform f3], [], false, FjordAny.new none⟩]
      = (RuleResult.bool true,
         ptSet (ptSet (ptSet (.obj fields) k (f1 (objLookup fields k))) k
             (f2 (objLookup fields k))) k (f3 (objLookup fields k)),
         [Event.beforeCall (objLookup fields k) k (.obj fields),
          Event.afterCall (f3 (objLookup fields k)) k
            (ptSet (ptSet (ptSet (.obj fields) k (f1 (objLookup fields k))) k
                (f2 (objLookup fields k))) k (f3 (objLookup fields k))),
          Event.onSuccessCall
            (ptSet (ptSet (ptSet (.obj fields) k (f1 (objLookup fields k))) k
                (f2 (objLookup fields k))) k (f3 (objLookup fields k)))])
    ∧ ptGet (ptSet (ptSet (ptSet (.obj fields) k (f1 (objLookup fields k))) k
          (f2 (objLookup fields k))) k (f3 (objLookup fields k))) k
        = f3 (objLookup fields k) := by
  have hget0 := ptGet_obj_single hseg fields
  have hobs : ptGet (ptSet (ptSet (ptSet (.obj fields) k (f1 (objLookup fields k))) k
      (f2 (objLookup fields k))) k (f3 (objLookup fields k))) k
      = f3 (objLookup fields k) := by
    rw [ptSet_obj_single hseg, ptSet_obj_single hseg, ptSet_obj_single hseg,
      ptGet_obj_single hseg, objLookup_objInsert_self]
  refine ⟨?_, hobs⟩
  have hpf : processField ⟨[liftTransform f1, liftTransform f2], []⟩ (.obj fields)
      ⟨k, false, [liftTransform f3], [], false, FjordAny.new none⟩
      = .ok (ptSet (ptSet (ptSet (.obj fields) k (f1 (objLookup fields k))) k
            (f2 (objLookup fields k))) k (f3 (objLookup fields k)))
          [Event.beforeCall (objLookup fields k) k (.obj fields),
           Event.afterCall (f3 (objLookup fields k)) k
             (ptSet (ptSet (ptSet (.obj fields) k (f1 (objLookup fields k))) k
                 (f2 (objLookup fields k))) k (f3 (objLookup fields k)))] := by
    simp only [processField, hget0, hv, Bool.false_and, Bool.false_eq_true, if_false,
      runTransforms, liftTransform, beforeEvents, afterEvents, List.cons_append,
      List.nil_append, List.append_nil, List.isEmpty_cons, FjordAny.new,
      FjordHandler.isOptional, checkRules, predRule, orErr, hobs, h3]
    simp [FjordAny.new, checkRules, predRule, orErr, hobs, h3, afterEvents]
  simp [validateRules, hpf]

/-- Witness for C2 with digit-appending transforms on root `{a: "x"}`: the
chain observes `"x9"`, the last transform applied to the original value. -/
theorem fjord_C2_witness :
    splitPath "a" = ["a"]
    ∧ (objLookup [("a", Value.str "x")] "a").isUndefined = false
    ∧ ((fun v => match v with | Value.str s => Value.str (s ++ "9") | _ => v)
        (objLookup [("a", Value.str "x")] "a")).isUndefined = false
    ∧ validateRules
        ⟨[liftTransform (fun v => match v with | Value.str s => Value.str (s ++ "7") | _ => v),
          liftTransform (fun v => match v with | Value.str s => Value.str (s ++ "8") | _ => v)],
         []⟩
        (.obj [("a", Value.str "x")])
        [⟨"a", false,
          [liftTransform (fun v => match v with | Value.str s => Value.str (s ++ "9") | _ => v)],
          [], false, FjordAny.new none⟩]
      = (RuleResult.bool true, Value.obj [("a", Value.str "x9")],
         [Event.beforeCall (Value.str "x") "a" (.obj [("a", Value.str "x")]),
          Event.afterCall (Value.str "x9") "a" (.obj [("a", Value.str "x9")]),
          Event.onSuccessCall (.obj [("a", Value.str "x9")])]) := by
  refine ⟨rfl, rfl, rfl, ?_⟩
  have h := (fjord_C2
    (fun v => match v with | Value.str s => Value.str (s ++ "7") | _ => v)
    (fun v => match v with | Value.str s => Value.str (s ++ "8") | _ => v)
    (fun v => match v with | Value.str s => Value.str (s ++ "9") | _ => v)
    "a" [("a", Value.str "x")] rfl rfl rfl).1
  exact h.trans (by rfl)

/-- The before-hook calls of one field are never `onSuccess` invocations. -/
theorem beforeEvents_no_success (rule : ValidationRule) (v root : Value) :
    (beforeEvents rule v root).countP Event.isSuccessCall = 0 := by
  cases hb : rule.hasBefore <;>
    simp [beforeEvents, hb, Event.isSuccessCall, List.countP_cons]

/-- The after-hook calls of one field are never `onSuccess` invocations. -/
theorem afterEvents_no_success (rule : ValidationRule) (v root : Value) :
    (afterEvents rule v root).countP Event.isSuccessCall = 0 := by
  cases ha : rule.hasAfter <;>
    simp [afterEvents, ha, Event.isSuccessCall, List.countP_cons]

/-- Rule effects are never `onSuccess` invocations. -/
theorem effs_no_success (tags : List Nat) :
    (tags.map Event.eff).countP Event.isSuccessCall = 0 := by
  induction tags with
  | nil => rfl
  | cons t ts ih => simp [Event.isSuccessCall, List.countP_cons, ih]

/-- A field that falls through to the next declaration emits no `onSuccess`
invocation: only the final success branch of `validateRules` does. -/
theorem processField_ok_no_success (o : IFjordOptions) (root : Value)
    (rule : ValidationRule) :
    ∀ (root2 : Value) (evs : List Event),
      processField o root rule = .ok root2 evs →
        evs.countP Event.isSuccessCall = 0 := by
  intro root2 evs
  simp only [processField]
  repeat' split
  all_goals intro h
  all_goals cases h
  all_goals simp [List.countP_append, beforeEvents_no_success, afterEvents_no_success,
    effs_no_success, Event.isSuccessCall, List.countP_cons]

/-- C5: when every field declaration passes — at each step the value is
absent with an optional chain, or present and accepted by the chain's
`check` — `validateRules` returns the literal boolean `true`, and the global
`onSuccess` hook is invoked exactly once, as the final event, with the final
root container. -/
theorem fjord_C5 (o : IFjordOptions) (rules : List ValidationRule) (root : Value)
    (h : allFieldsPass o root rules = true) :
    (validateRules o root rules).1 = RuleResult.bool true
    ∧ ((validateRules o root rules).2.2).countP Event.isSuccessCall = 1
    ∧ ((validateRules o root rules).2.2).getLast?
        = some (Event.onSuccessCall (validateRules o root rules).2.1) := by
  induction rules generalizing root with
  | nil =>
    refine ⟨rfl, ?_, rfl⟩
    simp [validateRules, Event.isSuccessCall, List.countP_cons]
  | cons rule rest ih =>
    rcases hpf : processField o root rule with ⟨res, r2, evs⟩ | ⟨r2, evs⟩
    · rw [allFieldsPass, hpf] at h
      exact absurd h (by simp)
    · have h' : allFieldsPass o r2 rest = true := by
        rw [allFieldsPass, hpf] at h
        exact h
      obtain ⟨ih1, ih2, ih3⟩ := ih r2 h'
      have hok := processField_ok_no_success o root rule r2 evs hpf
      have hne : (validateRules o r2 rest).2.2 ≠ [] := by
        intro hnil
        rw [hnil] at ih3
        exact absurd ih3 (by simp)
      refine ⟨?_, ?_, ?_⟩
      · simp [validateRules, hpf, ih1]
      · simp [validateRules, hpf, List.countP_append, hok, ih2]
      · simp only [validateRules, hpf]
        rw [List.getLast?_append_of_ne_nil evs hne]
        exact ih3

/-- Witness for C5 at concrete scenario A: root `{a: 2, b: 3}` with two
passing chains `integer().min(0).max(5)` — the call returns `true` and ends
with a single `onSuccess` invocation carrying the final root. -/
theorem fjord_C5_witness :
    allFieldsPass defaultFjordOptions
        (.obj [("a", Value.num (.finite 2)), ("b", Value.num (.finite 3))])
        [⟨"a", false, [], [], false,
          FjordNumber.max (FjordNumber.min (FjordInteger.new none) (.finite 0) none)
            (.finite 5) none⟩,
         ⟨"b", false, [], [], false,
          FjordNumber.max (FjordNumber.min (FjordInteger.new none) (.finite 0) none)
            (.finite 5) none⟩]
      = true
    ∧ ((validateRules defaultFjordOptions
          (.obj [("a", Value.num (.finite 2)), ("b", Value.num (.finite 3))])
          [⟨"a", false, [], [], false,
            FjordNumber.max (FjordNumber.min (FjordInteger.new none) (.finite 0) none)
              (.finite 5) none⟩,
           ⟨"b", false, [], [], false,
            FjordNumber.max (FjordNumber.min (FjordInteger.new none) (.finite 0) none)
              (.finite 5) none⟩]).1 = RuleResult.bool true
       ∧ ((validateRules defaultFjordOptions
            (.obj [("a", Value.num (.finite 2)), ("b", Value.num (.finite 3))])
            [⟨"a", false, [], [], false,
              FjordNumber.max (FjordNumber.min (FjordInteger.new none) (.finite 0) none)
                (.finite 5) none⟩,
             ⟨"b", false, [], [], false,
              FjordNumber.max (FjordNumber.min (FjordInteger.new none) (.finite 0) none)
                (.finite 5) none⟩]).2.2).countP Event.isSuccessCall = 1
       ∧ ((validateRules defaultFjordOptions
            (.obj [("a", Value.num (.finite 2)), ("b", Value.num (.finite 3))])
            [⟨"a", false, [], [], false,
              FjordNumber.max (FjordNumber.min (FjordInteger.new none) (.finite 0) none)
                (.finite 5) none⟩,
             ⟨"b", false, [], [], false,
              FjordNumber.max (FjordNumber.min (FjordInteger.new none) (.finite 0) none)
                (.finite 5) none⟩]).2.2).getLast?
          = some (Event.onSuccessCall
              ((validateRules defaultFjordOptions
                 (.obj [("a", Value.num (.finite 2)), ("b", Value.num (.finite 3))])
                 [⟨"a", false, [], [], false,
                   FjordNumber.max (FjordNumber.min (FjordInteger.new none) (.finite 0) none)
                     (.finite 5) none⟩,
                  ⟨"b", false, [], [], false,
                   FjordNumber.max (FjordNumber.min (FjordInteger.new none) (.finite 0) none)
                     (.finite 5) none⟩]).2.1))) :=
  ⟨by rfl,
   fjord_C5 defaultFjordOptions
     [⟨"a", false, [], [], false,
       FjordNumber.max (FjordNumber.min (FjordInteger.new none) (.finite 0) none)
         (.finite 5) none⟩,
      ⟨"b", false, [], [], false,
       FjordNumber.max (FjordNumber.min (FjordInteger.new none) (.finite 0) none)
         (.finite 5) none⟩]
     (.obj [("a", Value.num (.finite 2)), ("b", Value.num (.finite 3))])
     (by rfl)⟩
